import Mathlib

/-!
Verification development for the balena-pricing credit pricing library.

The TypeScript source (src/index.ts, class CreditPricing) is shallowly
embedded below.  JavaScript numbers are modelled as exact rationals (ℚ)
wherever the source only performs field arithmetic, and as real numbers (ℝ)
where the source evaluates the transcendental power-law branch of the
pricing curve (Math.log10 / Math.pow / 10 **).  Math.round is
round-half-towards-plus-infinity, i.e. fun x => Int.floor (x + 1/2),
which is exactly what JavaScript Math.round computes on finite numbers.
Dates are modelled by their millisecond epoch value (an integer), which is
in bijection with the ISO string used by the source for duplicate checks.
Thrown InvalidParametersError values are modelled as an error enumeration,
one constructor per distinct throw site / message of the source, and
functions return Except PricingError instead of throwing.
-/

set_option allowUnsafeReducibility true
attribute [local semireducible] Rat.add Rat.mul Rat.inv Rat.sub Rat.div
  Rat.neg Rat.ofScientific

/-- Decidable equality for Except, needed to decide concrete runs of the
embedded methods. -/
instance exceptDecEq {ε α : Type} [DecidableEq ε] [DecidableEq α] :
    DecidableEq (Except ε α) := fun x y =>
  match x, y with
  | .ok a, .ok b =>
    if h : a = b then .isTrue (by rw [h])
    else .isFalse (by intro hc; cases hc; exact h rfl)
  | .error a, .error b =>
    if h : a = b then .isTrue (by rw [h])
    else .isFalse (by intro hc; cases hc; exact h rfl)
  | .ok _, .error _ => .isFalse (by intro hc; cases hc)
  | .error _, .ok _ => .isFalse (by intro hc; cases hc)

/-- Error enumeration: one constructor per distinct throw site of the
source.  The source raises a single class InvalidParametersError with a
distinguishing message; the message of each constructor is given by
PricingError.message below. -/
inductive PricingError where
  | duplicateVersion (slug : String) (version : ℤ)
  | duplicateValidFrom (slug : String) (validFrom : ℤ)
  | unknownFeature (slug : String)
  | featureNotPriced
  | availableCreditsNotWhole
  | purchaseAmountNotWhole
  | availableCreditsNegative
  | purchaseAmountNotPositive
  | quantityOverflow
  | unitCostNotWhole
  | unitCostNotPositive
  | unitCostTooHigh (maxCents : ℚ)
  deriving DecidableEq

/-- Message carried by each error, matching the strings thrown by the
source (dates are printed as epoch milliseconds rather than ISO strings). -/
def PricingError.message : PricingError → String
  | .duplicateVersion slug version =>
      "Duplicate version " ++ toString version ++ " for feature " ++ slug
  | .duplicateValidFrom slug validFrom =>
      "Duplicate validFrom " ++ toString validFrom ++ " for feature " ++ slug
  | .unknownFeature slug => "Feature " ++ slug ++ " not supported for credits"
  | .featureNotPriced => "Requested feature not allowed for credit usage"
  | .availableCreditsNotWhole => "Available credits must be a whole number"
  | .purchaseAmountNotWhole => "Credit purchase amount must be a whole number"
  | .availableCreditsNegative =>
      "Available credits must be greater than or equal to 0"
  | .purchaseAmountNotPositive =>
      "Credit purchase amount must be greater than 0"
  | .quantityOverflow =>
      "The provided quantity surpasses the maximum supported amount of credits"
  | .unitCostNotWhole => "Unit cost must be a whole number"
  | .unitCostNotPositive => "Unit cost must be greater than 0"
  | .unitCostTooHigh maxCents =>
      "Unit cost cannot be greater than " ++ toString maxCents

/-- Credit pricing definition (interface Credit of the source).
validFrom is the epoch-millisecond value of the Date. -/
structure Credit where
  validFrom : ℤ
  version : ℤ
  firstDiscountPriceCents : ℚ
  discountRate : ℚ
  discountThreshold : ℚ
  discountThresholdPriceCents : ℚ
  deriving DecidableEq

/-- Selector target (the options.target union of the source). -/
inductive Target where
  | current
  | latest
  | version (v : ℤ)
  | date (d : ℤ)
  deriving DecidableEq

/-- CreditRange of the source ({ from?, to? }); the field names from and
to are Lean keywords, hence the Amount suffix. -/
structure CreditRange where
  fromAmount : Option ℤ
  toAmount : Option ℤ
  deriving DecidableEq

/-- Credits mapping (interface Credits); a JavaScript object is modelled
as an association list keyed by the feature slug. -/
def CreditsMap : Type := List (String × List Credit)

/-- The built-in production pricing table CREDITS of the source.
1675209600000 is 2023-02-01T00:00:00Z and 1678233600000 is
2023-03-08T00:00:00Z in epoch milliseconds. -/
def creditV1 : Credit :=
  { validFrom := 1675209600000, version := 1, firstDiscountPriceCents := 149,
    discountRate := 33/100, discountThreshold := 12000,
    discountThresholdPriceCents := 125 }

/-- Version 2 row of the built-in production pricing table. -/
def creditV2 : Credit :=
  { validFrom := 1678233600000, version := 2, firstDiscountPriceCents := 199,
    discountRate := 33/100, discountThreshold := 12000,
    discountThresholdPriceCents := 150 }

/-- The production CREDITS table of the source. -/
def CREDITS : CreditsMap := [("device:microservices", [creditV1, creditV2])]

/-- JavaScript Math.round on a finite number: round half towards plus
infinity (exact on rationals). -/
def ratRound (q : ℚ) : ℤ := ⌊q + 1/2⌋

/-- JavaScript Math.round on a finite number, real-valued version, used
where the rounded expression is transcendental. -/
noncomputable def realRound (x : ℝ) : ℤ := ⌊x + 1/2⌋

set_option exponentiation.threshold 20000
set_option maxRecDepth 10000

/-- Value of a JavaScript numeric expression: expressions the source
computes with field operations only stay exact rationals, expressions
going through Math.log10 / exponentiation are reals. -/
inductive JsVal where
  | rat (q : ℚ)
  | real (x : ℝ)

/-- JavaScript Math.ceil on a finite number. -/
noncomputable def jsCeil : JsVal → ℤ
  | .rat q => ⌈q⌉
  | .real x => ⌈x⌉

/-- JavaScript Math.floor on a finite number. -/
noncomputable def jsFloor : JsVal → ℤ
  | .rat q => ⌊q⌋
  | .real x => ⌊x⌋

/-- Sort each feature's definitions by validFrom, descending (function
sortCredits of the source; Array.prototype.sort with comparator
(a, b) => b.validFrom - a.validFrom, which is stable). -/
def sortCredits (credits : CreditsMap) : CreditsMap :=
  credits.map fun entry =>
    (entry.1, entry.2.insertionSort fun a b => b.validFrom ≤ a.validFrom)

/-- Inner loop of validateCredits for one feature: walk the definitions
keeping the sets of versions and validFrom values already seen. -/
def validateDefinitions (slug : String) :
    List Credit → List ℤ → List ℤ → Except PricingError Unit
  | [], _, _ => .ok ()
  | d :: rest, seenVersions, seenValidFroms =>
    if d.version ∈ seenVersions then
      .error (.duplicateVersion slug d.version)
    else if d.validFrom ∈ seenValidFroms then
      .error (.duplicateValidFrom slug d.validFrom)
    else
      validateDefinitions slug rest (d.version :: seenVersions)
        (d.validFrom :: seenValidFroms)

/-- Function validateCredits of the source: assert that no feature has a
duplicate version or a duplicate validFrom. -/
def validateCredits : CreditsMap → Except PricingError Unit
  | [] => .ok ()
  | (slug, defs) :: rest => do
    validateDefinitions slug defs [] []
    validateCredits rest

/-- The pricing engine (class CreditPricing): an immutable pair of the
sorted credits table and the selector target. -/
structure CreditPricing where
  credits : CreditsMap
  target : Target

/-- Object property access this.credits[featureSlug] (null when the key
is absent). -/
def lookupCredits (credits : CreditsMap) (featureSlug : String) :
    Option (List Credit) :=
  (credits.find? fun entry => entry.1 == featureSlug).map (·.2)

/-- Constructor of class CreditPricing: sort, then validate; a validation
failure is a thrown error, so construction yields Except. -/
def CreditPricing.make (credits : CreditsMap) (target : Target) :
    Except PricingError CreditPricing :=
  let sorted := sortCredits credits
  match validateCredits sorted with
  | .error e => .error e
  | .ok _ => .ok { credits := sorted, target := target }

/-- Target dispatch inside getDefinition: latest takes the head of the
descending-sorted list, a version target searches for that exact version,
a date target (and current, with the wall clock now) takes the first
definition with validFrom at or before the date. -/
def selectCredit (target : Target) (now : ℤ) (definitions : List Credit) :
    Option Credit :=
  match target with
  | .latest => definitions.head?
  | .version v => definitions.find? fun credit => credit.version == v
  | .date d => definitions.find? fun credit => decide (credit.validFrom ≤ d)
  | .current => definitions.find? fun credit => decide (credit.validFrom ≤ now)

/-- Method getDefinition of the source.  The wall clock (new Date()) is
passed explicitly as now.  Throws unknownFeature when the slug has no
entry at all; otherwise returns the selected definition or none. -/
def CreditPricing.getDefinition (e : CreditPricing) (featureSlug : String)
    (now : ℤ) : Except PricingError (Option Credit) :=
  match lookupCredits e.credits featureSlug with
  | none => .error (.unknownFeature featureSlug)
  | some definitions => .ok (selectCredit e.target now definitions)

/-- Unrounded value of the power-law (asymptotic) branch of
getCreditPrice: discountThresholdPriceCents times
(1 - discountRate) to the power log10 (total / discountThreshold). -/
noncomputable def asympPrice (pricing : Credit) (total : ℚ) : ℝ :=
  (pricing.discountThresholdPriceCents : ℝ) *
    (1 - (pricing.discountRate : ℝ)) ^
      Real.logb 10 ((total : ℝ) / (pricing.discountThreshold : ℝ))

/-- Method getCreditPrice of the source.  Number.isInteger is den = 1 on
the exact rational input.  The linear branch is exact rational
arithmetic; the power-law branch rounds the real asympPrice value and
throws quantityOverflow when the rounded result is not positive. -/
noncomputable def CreditPricing.getCreditPrice (e : CreditPricing)
    (featureSlug : String) (now : ℤ)
    (availableCredits creditsToPurchase : ℚ) : Except PricingError ℤ :=
  if availableCredits.den ≠ 1 then .error .availableCreditsNotWhole
  else if creditsToPurchase.den ≠ 1 then .error .purchaseAmountNotWhole
  else if availableCredits < 0 then .error .availableCreditsNegative
  else if creditsToPurchase ≤ 0 then .error .purchaseAmountNotPositive
  else
    match e.getDefinition featureSlug now with
    | .error err => .error err
    | .ok none => .error .featureNotPriced
    | .ok (some pricing) =>
      let total := availableCredits + creditsToPurchase
      if creditsToPurchase = 0 ∨ total = 0 then .ok 0
      else if total ≤ pricing.discountThreshold then
        .ok (ratRound (pricing.firstDiscountPriceCents +
          (pricing.discountThresholdPriceCents -
              pricing.firstDiscountPriceCents) /
            (pricing.discountThreshold - 1) * (total - 1)))
      else
        let result := realRound (asympPrice pricing total)
        if result ≤ 0 then .error .quantityOverflow
        else .ok result

/-- Method getCreditTotalPrice of the source: Math.round of unit price
times purchase amount. -/
noncomputable def CreditPricing.getCreditTotalPrice (e : CreditPricing)
    (featureSlug : String) (now : ℤ)
    (availableCredits creditsToPurchase : ℚ) : Except PricingError ℤ := do
  let price ← e.getCreditPrice featureSlug now availableCredits
    creditsToPurchase
  pure (ratRound ((price : ℚ) * creditsToPurchase))

/-- Function getCreditAmount of the source (inverse of the unit price
curve): linear-segment inverse when the unit cost is at or above the
threshold price (exact rational), power-law inverse below it (real). -/
noncomputable def getCreditAmount (pricing : Credit) (unitCost : ℚ) : JsVal :=
  if pricing.discountThresholdPriceCents ≤ unitCost then
    .rat ((unitCost - pricing.firstDiscountPriceCents) *
        (pricing.discountThreshold - 1) /
        (pricing.discountThresholdPriceCents -
          pricing.firstDiscountPriceCents) + 1)
  else
    .real ((pricing.discountThreshold : ℝ) *
      (10 : ℝ) ^
        (Real.logb 10
            ((unitCost : ℝ) / (pricing.discountThresholdPriceCents : ℝ)) /
          Real.logb 10 (1 - (pricing.discountRate : ℝ))))

/-- First while loop of fixRange: add credits while the unit cost is
above lowerUnitCost.  The source loop has no iteration cap; fuel is the
explicit termination budget of the embedding, and a none result means the
budget was exhausted with the loop still running.  Returns the final
amount together with its unit cost. -/
noncomputable def CreditPricing.fixLoopUp (e : CreditPricing)
    (featureSlug : String) (now : ℤ) (lowerUnitCost : ℚ) :
    ℕ → ℤ → ℤ → Except PricingError (Option (ℤ × ℤ))
  | 0, _, _ => .ok none
  | fuel + 1, fixed, unitCost =>
    if lowerUnitCost < (unitCost : ℚ) then do
      let u ← e.getCreditPrice featureSlug now 0 ((fixed + 1 : ℤ) : ℚ)
      CreditPricing.fixLoopUp e featureSlug now lowerUnitCost fuel
        (fixed + 1) u
    else .ok (some (fixed, unitCost))

/-- Second while loop of fixRange: reduce credits while the unit cost
equals lowerUnitCost. -/
noncomputable def CreditPricing.fixLoopDown (e : CreditPricing)
    (featureSlug : String) (now : ℤ) (lowerUnitCost : ℚ) :
    ℕ → ℤ → ℤ → Except PricingError (Option ℤ)
  | 0, _, _ => .ok none
  | fuel + 1, fixed, unitCost =>
    if (unitCost : ℚ) = lowerUnitCost then do
      let u ← e.getCreditPrice featureSlug now 0 ((fixed - 1 : ℤ) : ℚ)
      CreditPricing.fixLoopDown e featureSlug now lowerUnitCost fuel
        (fixed - 1) u
    else .ok (some fixed)

/-- Method fixRange of the source: walk the candidate amount up until its
unit cost is at or below lowerUnitCost, then back down while it equals
lowerUnitCost, returning the last amount priced strictly above
lowerUnitCost. -/
noncomputable def CreditPricing.fixRange (fuel : ℕ) (e : CreditPricing)
    (featureSlug : String) (now : ℤ) (lowerUnitCost : ℚ) (amount : ℤ) :
    Except PricingError (Option ℤ) := do
  let u0 ← e.getCreditPrice featureSlug now 0 (amount : ℚ)
  let r1 ← CreditPricing.fixLoopUp e featureSlug now lowerUnitCost fuel
    amount u0
  match r1 with
  | none => pure none
  | some (fixed, u) =>
    CreditPricing.fixLoopDown e featureSlug now lowerUnitCost fuel fixed u

/-- The from-correction block of getCreditRange: when a from estimate is
present and truthy (nonzero) and fails the round-trip check (price at
from equals the unit cost and price at from - 1 equals unit cost + 1),
replace it with fixRange + 1.  The && of the source short-circuits, so
the second price call only happens when the first matched.  The outer
Option is the fuel budget of fixRange; the inner Option is the range
field. -/
noncomputable def CreditPricing.correctFrom (fuel : ℕ) (e : CreditPricing)
    (featureSlug : String) (now : ℤ) (unitCost : ℚ) :
    Option ℤ → Except PricingError (Option (Option ℤ))
  | none => .ok (some none)
  | some f =>
    if f = 0 then .ok (some (some f))
    else do
      let p1 ← e.getCreditPrice featureSlug now 0 (f : ℚ)
      if (p1 : ℚ) = unitCost then do
        let p2 ← e.getCreditPrice featureSlug now 0 ((f - 1 : ℤ) : ℚ)
        if (p2 : ℚ) = unitCost + 1 then pure (some (some f))
        else do
          let fx ← CreditPricing.fixRange fuel e featureSlug now unitCost f
          pure (fx.map fun x => some (x + 1))
      else do
        let fx ← CreditPricing.fixRange fuel e featureSlug now unitCost f
        pure (fx.map fun x => some (x + 1))

/-- The to-correction block of getCreditRange: when a to estimate is
present and truthy and fails its round-trip check (price at to equals the
unit cost and price at to + 1 equals unit cost - 1), replace it with
fixRange at unit cost - 1. -/
noncomputable def CreditPricing.correctTo (fuel : ℕ) (e : CreditPricing)
    (featureSlug : String) (now : ℤ) (unitCost : ℚ) :
    Option ℤ → Except PricingError (Option (Option ℤ))
  | none => .ok (some none)
  | some t =>
    if t = 0 then .ok (some (some t))
    else do
      let p1 ← e.getCreditPrice featureSlug now 0 (t : ℚ)
      if (p1 : ℚ) = unitCost then do
        let p2 ← e.getCreditPrice featureSlug now 0 ((t + 1 : ℤ) : ℚ)
        if (p2 : ℚ) = unitCost - 1 then pure (some (some t))
        else do
          let fx ← CreditPricing.fixRange fuel e featureSlug now
            (unitCost - 1) t
          pure (fx.map fun x => some x)
      else do
        let fx ← CreditPricing.fixRange fuel e featureSlug now
          (unitCost - 1) t
        pure (fx.map fun x => some x)

/-- Method getCreditRange of the source.  Validates the unit cost,
resolves the definition, rejects unit costs above the first discount
price, computes the closed-form from (only below the first discount
price) and to (only above one cent) estimates, and patches both with the
correction blocks.  A none result means the fixRange fuel budget ran out
(the source would still be looping). -/
noncomputable def CreditPricing.getCreditRange (fuel : ℕ)
    (e : CreditPricing) (featureSlug : String) (now : ℤ) (unitCost : ℚ) :
    Except PricingError (Option CreditRange) :=
  if unitCost.den ≠ 1 then .error .unitCostNotWhole
  else if unitCost ≤ 0 then .error .unitCostNotPositive
  else
    match e.getDefinition featureSlug now with
    | .error err => .error err
    | .ok none => .error .featureNotPriced
    | .ok (some pricing) =>
      if pricing.firstDiscountPriceCents < unitCost then
        .error (.unitCostTooHigh pricing.firstDiscountPriceCents)
      else
        let from0 : Option ℤ :=
          if unitCost < pricing.firstDiscountPriceCents then
            some (jsCeil (getCreditAmount pricing (unitCost + 1/2)))
          else none
        let to0 : Option ℤ :=
          if 1 < unitCost then
            some (jsFloor (getCreditAmount pricing (unitCost - 1/2)))
          else none
        do
          let fr ← CreditPricing.correctFrom fuel e featureSlug now unitCost
            from0
          match fr with
          | none => pure none
          | some f1 => do
            let tr ← CreditPricing.correctTo fuel e featureSlug now unitCost
              to0
            match tr with
            | none => pure none
            | some t1 => pure (some { fromAmount := f1, toAmount := t1 })

/-- Value of a JavaScript number including the IEEE non-finite values,
used for getDiscountOverDynamic, whose division is not guarded against a
zero divisor.  Finite values are exact rationals; the rational 0 plays
the role of IEEE +0 here, which is what the literal argument 0 denotes in
JavaScript. -/
inductive JsNum where
  | fin (q : ℚ)
  | posInf
  | negInf
  | nan
  deriving DecidableEq

/-- Whether a JavaScript number is finite. -/
def JsNum.isFinite : JsNum → Bool
  | .fin _ => true
  | _ => false

/-- IEEE subtraction on JavaScript numbers. -/
def jsSub : JsNum → JsNum → JsNum
  | .nan, _ => .nan
  | _, .nan => .nan
  | .fin a, .fin b => .fin (a - b)
  | .fin _, .posInf => .negInf
  | .fin _, .negInf => .posInf
  | .posInf, .fin _ => .posInf
  | .negInf, .fin _ => .negInf
  | .posInf, .negInf => .posInf
  | .negInf, .posInf => .negInf
  | .posInf, .posInf => .nan
  | .negInf, .negInf => .nan

/-- IEEE division on JavaScript numbers; a zero divisor is +0, giving a
signed infinity for a nonzero dividend and NaN for 0 / 0. -/
def jsDiv : JsNum → JsNum → JsNum
  | .nan, _ => .nan
  | _, .nan => .nan
  | .fin a, .fin b =>
    if b = 0 then
      if a = 0 then .nan
      else if 0 < a then .posInf
      else .negInf
    else .fin (a / b)
  | .fin _, .posInf => .fin 0
  | .fin _, .negInf => .fin 0
  | .posInf, .fin b => if 0 ≤ b then .posInf else .negInf
  | .negInf, .fin b => if 0 ≤ b then .negInf else .posInf
  | .posInf, _ => .nan
  | .negInf, _ => .nan

/-- IEEE multiplication on JavaScript numbers. -/
def jsMul : JsNum → JsNum → JsNum
  | .nan, _ => .nan
  | _, .nan => .nan
  | .fin a, .fin b => .fin (a * b)
  | .fin a, .posInf => if a = 0 then .nan else if 0 < a then .posInf else .negInf
  | .fin a, .negInf => if a = 0 then .nan else if 0 < a then .negInf else .posInf
  | .posInf, .fin b => if b = 0 then .nan else if 0 < b then .posInf else .negInf
  | .negInf, .fin b => if b = 0 then .nan else if 0 < b then .negInf else .posInf
  | .posInf, .posInf => .posInf
  | .posInf, .negInf => .negInf
  | .negInf, .posInf => .negInf
  | .negInf, .negInf => .posInf

/-- JavaScript Math.round extended to non-finite values (it is the
identity on infinities and NaN). -/
def jsRoundNum : JsNum → JsNum
  | .fin q => .fin ((ratRound q : ℤ) : ℚ)
  | x => x

/-- Method getDiscountOverDynamic of the source:
Math.round ((dynamicPriceCents - unitPrice) / dynamicPriceCents * 100),
computed in IEEE arithmetic with no validation of dynamicPriceCents. -/
noncomputable def CreditPricing.getDiscountOverDynamic (e : CreditPricing)
    (featureSlug : String) (now : ℤ)
    (availableCredits creditsToPurchase dynamicPriceCents : ℚ) :
    Except PricingError JsNum := do
  let price ← e.getCreditPrice featureSlug now availableCredits
    creditsToPurchase
  pure (jsRoundNum (jsMul
    (jsDiv (jsSub (.fin dynamicPriceCents) (.fin (price : ℚ)))
      (.fin dynamicPriceCents))
    (.fin 100)))

/-- Method getTotalSavings of the source:
Math.round (purchase * (dynamicPriceCents - unitPrice)). -/
noncomputable def CreditPricing.getTotalSavings (e : CreditPricing)
    (featureSlug : String) (now : ℤ)
    (availableCredits creditsToPurchase dynamicPriceCents : ℚ) :
    Except PricingError ℤ := do
  let price ← e.getCreditPrice featureSlug now availableCredits
    creditsToPurchase
  pure (ratRound (creditsToPurchase * (dynamicPriceCents - (price : ℚ))))

/-! ## Concrete engines used by the claims -/

/-- The pricing definition named by the specification:
firstDiscountPriceCents 149, discountRate 0.33, discountThreshold 12000,
discountThresholdPriceCents 125 (version 1 of the production table). -/
def specCredit : Credit :=
  { validFrom := 0, version := 1, firstDiscountPriceCents := 149,
    discountRate := 33/100, discountThreshold := 12000,
    discountThresholdPriceCents := 125 }

/-- Engine holding only specCredit, targeting latest so that resolution
does not depend on the wall clock. -/
def specEngine : CreditPricing :=
  { credits := [("credits", [specCredit])], target := .latest }

/-- A valid pricing definition whose linear segment has slope -2 cents
per credit, so its unit-price curve skips every odd cent value; used to
probe the inverse round-trip. -/
def skipCredit : Credit :=
  { validFrom := 0, version := 1, firstDiscountPriceCents := 100,
    discountRate := 33/100, discountThreshold := 11,
    discountThresholdPriceCents := 80 }

/-- Engine holding only skipCredit. -/
def skipEngine : CreditPricing :=
  { credits := [("credits", [skipCredit])], target := .latest }

/-- A valid pricing definition whose linear segment has slope -1/20000
cents per credit, so the fixRange walk from amount 1 towards unit cost 1
needs more than ten thousand single-credit steps. -/
def slowCredit : Credit :=
  { validFrom := 0, version := 1, firstDiscountPriceCents := 2,
    discountRate := 33/100, discountThreshold := 20001,
    discountThresholdPriceCents := 1 }

/-- Engine holding only slowCredit. -/
def slowEngine : CreditPricing :=
  { credits := [("credits", [slowCredit])], target := .latest }

/-- Version 1 of the selector scenario for feature foo:bar, valid from
two hours before the evaluation instant now. -/
def fooDef1 (now : ℤ) : Credit :=
  { validFrom := now - 7200000, version := 1, firstDiscountPriceCents := 149,
    discountRate := 33/100, discountThreshold := 12000,
    discountThresholdPriceCents := 125 }

/-- Version 2 of the selector scenario, valid from one hour before now. -/
def fooDef2 (now : ℤ) : Credit :=
  { validFrom := now - 3600000, version := 2, firstDiscountPriceCents := 149,
    discountRate := 33/100, discountThreshold := 12000,
    discountThresholdPriceCents := 125 }

/-- Version 3 of the selector scenario, valid from one hour after now. -/
def fooDef3 (now : ℤ) : Credit :=
  { validFrom := now + 3600000, version := 3, firstDiscountPriceCents := 149,
    discountRate := 33/100, discountThreshold := 12000,
    discountThresholdPriceCents := 125 }

/-- The selector scenario table: three versions of feature foo:bar. -/
def fooCredits (now : ℤ) : CreditsMap :=
  [("foo:bar", [fooDef1 now, fooDef2 now, fooDef3 now])]

/-- Engine whose target version 99 matches no definition: the feature key
is present but resolution yields an absent result. -/
def missEngine : CreditPricing :=
  { credits := [("credits", [specCredit])], target := .version 99 }

/-- Round-trip check for the inverse: getCreditRange on the spec engine
returns a defined from bound whose unit price is exactly the target and
whose predecessor prices one cent higher. -/
noncomputable def roundTripFromOk (t : ℤ) : Bool :=
  match CreditPricing.getCreditRange 1000 specEngine "credits" 0 (t : ℚ) with
  | .ok (some range) =>
    match range.fromAmount with
    | some f =>
      decide (specEngine.getCreditPrice "credits" 0 0 (f : ℚ) = .ok t) &&
      decide (specEngine.getCreditPrice "credits" 0 0 ((f - 1 : ℤ) : ℚ) =
        .ok (t + 1))
    | none => false
  | _ => false

/-! ## Theorems -/

/-- The two roundings agree on rational values, so using ratRound on the
(rational) linear branch and realRound on the power-law branch is the
same single Math.round of the source. -/
theorem ratRound_eq_realRound (q : ℚ) : ratRound q = realRound (q : ℝ) := by
  unfold ratRound realRound
  rw [show ((q : ℝ) + 1/2) = (((q + 1/2 : ℚ) : ℝ)) by push_cast; ring,
    Rat.floor_cast]

/-! ## Closed form of the unit price on the slow engine, and the exact
behaviour of the fixRange loops there -/

/-- Unit price on the slow engine: 2 cents up to total 10001, then
1 cent up to the discount threshold 20001. -/
theorem slow_price (n : ℤ) (h1 : 1 ≤ n) (h2 : n ≤ 20001) :
    slowEngine.getCreditPrice "credits" 0 0 (n : ℚ) =
      .ok (if n ≤ 10001 then 2 else 1) := by
  have hd : slowEngine.getDefinition "credits" 0 = .ok (some slowCredit) := by rfl
  have hq1 : (1 : ℚ) ≤ (n : ℚ) := by exact_mod_cast h1
  have hq2 : (n : ℚ) ≤ 20001 := by exact_mod_cast h2
  have hnpos : (0 : ℚ) < (n : ℚ) := by linarith
  unfold CreditPricing.getCreditPrice
  rw [hd]
  simp only [slowCredit]
  rw [if_neg (by norm_num), if_neg (by simp [Rat.den_intCast]),
    if_neg (by norm_num), if_neg (by push_neg; exact hnpos),
    if_neg (by push_neg; constructor <;> [exact hnpos.ne'; simpa using hnpos.ne']),
    if_pos (by linarith)]
  congr 1
  have key : (2 : ℚ) + (1 - 2) / (20001 - 1) * (0 + (n : ℚ) - 1) + 1/2 =
      ((50001 - n : ℤ) : ℚ) / 20000 := by push_cast; ring
  unfold ratRound
  rw [key]
  by_cases hc : n ≤ 10001
  · have hcq : (n : ℚ) ≤ 10001 := by exact_mod_cast hc
    rw [if_pos hc, Int.floor_eq_iff]
    constructor
    · rw [le_div_iff₀ (by norm_num)]
      push_cast
      linarith
    · rw [div_lt_iff₀ (by norm_num)]
      push_cast
      linarith
  · push_neg at hc
    have hcq : (10002 : ℚ) ≤ (n : ℚ) := by exact_mod_cast hc
    rw [if_neg (by omega), Int.floor_eq_iff]
    constructor
    · rw [le_div_iff₀ (by norm_num)]
      push_cast
      linarith
    · rw [div_lt_iff₀ (by norm_num)]
      push_cast
      linarith

/-- Monadic bind of Except on a success value, as a rewrite rule. -/
theorem exceptBind_ok {eps alpha beta : Type} (a : alpha)
    (f : alpha → Except eps beta) : (Except.ok a >>= f : Except eps beta) = f a := rfl

/-- With fuel at most 10002 - n, the first fixRange loop on the slow
engine is still running (every visited amount is priced at 2 cents,
above the lower unit cost 1). -/
theorem fixLoopUp_slow_none (f : ℕ) : ∀ n : ℤ, 1 ≤ n → n + f ≤ 10002 →
    CreditPricing.fixLoopUp slowEngine "credits" 0 1 f n 2 = .ok none := by
  induction f with
  | zero => intro n _ _; rfl
  | succ f ih =>
    intro n hn hf
    unfold CreditPricing.fixLoopUp
    rw [if_pos (by norm_num : (1:ℚ) < ((2:ℤ):ℚ))]
    rw [slow_price (n + 1) (by omega) (by omega)]
    by_cases hc : n + 1 ≤ 10001
    · rw [if_pos hc]
      simpa [Except.bind] using ih (n + 1) (by omega) (by omega)
    · have hf0 : f = 0 := by omega
      rw [if_neg hc]
      subst hf0
      rfl

/-- The first fixRange loop exits as soon as the unit cost is no longer
above the lower unit cost. -/
theorem fixLoopUp_slow_exit (f : ℕ) (hf : 1 ≤ f) :
    CreditPricing.fixLoopUp slowEngine "credits" 0 1 f 10002 1 =
      .ok (some (10002, 1)) := by
  obtain ⟨f', rfl⟩ : ∃ f', f = f' + 1 := ⟨f - 1, by omega⟩
  unfold CreditPricing.fixLoopUp
  rw [if_neg (by norm_num)]

/-- With fuel at least 10003 - n, the first fixRange loop on the slow
engine runs to amount 10002, the first amount priced at 1 cent. -/
theorem fixLoopUp_slow_some (f : ℕ) : ∀ n : ℤ, 1 ≤ n → n ≤ 10001 →
    10003 - n ≤ (f : ℤ) →
    CreditPricing.fixLoopUp slowEngine "credits" 0 1 f n 2 =
      .ok (some (10002, 1)) := by
  induction f with
  | zero => intro n _ h2 h3; omega
  | succ f ih =>
    intro n hn h2 h3
    unfold CreditPricing.fixLoopUp
    rw [if_pos (by norm_num : (1:ℚ) < ((2:ℤ):ℚ))]
    rw [slow_price (n + 1) (by omega) (by omega)]
    by_cases hc : n + 1 ≤ 10001
    · rw [if_pos hc]
      simpa [Except.bind] using ih (n + 1) (by omega) (by omega) (by omega)
    · have hn1 : n = 10001 := by omega
      rw [if_neg hc]
      subst hn1
      simpa [Except.bind] using fixLoopUp_slow_exit f (by push_cast at h3; omega)

/-- The second fixRange loop steps back once from amount 10002 (priced
exactly at the lower unit cost 1) to amount 10001 (priced at 2). -/
theorem fixLoopDown_slow (f : ℕ) (hf : 2 ≤ f) :
    CreditPricing.fixLoopDown slowEngine "credits" 0 1 f 10002 1 =
      .ok (some 10001) := by
  obtain ⟨f', rfl⟩ : ∃ f', f = f' + 2 := ⟨f - 2, by omega⟩
  unfold CreditPricing.fixLoopDown
  rw [if_pos (by norm_num : ((1:ℤ):ℚ) = 1)]
  rw [show (10002 - 1 : ℤ) = 10001 by norm_num, slow_price 10001 (by omega) (by omega),
    exceptBind_ok]
  unfold CreditPricing.fixLoopDown
  norm_num

/-- With any fuel budget up to 10001 iterations, fixRange on the slow
engine is still looping: no error is raised at the budget, the walk has
simply not yet reached its boundary. -/
theorem fixRange_slow_stuck (fuel : ℕ) (hfuel : fuel ≤ 10001) :
    CreditPricing.fixRange fuel slowEngine "credits" 0 1 1 = .ok none := by
  unfold CreditPricing.fixRange
  rw [slow_price 1 (by omega) (by omega)]
  rw [if_pos (by omega : (1:ℤ) ≤ 10001), exceptBind_ok,
    fixLoopUp_slow_none fuel 1 (by omega) (by omega)]
  rfl

/-- With fuel at least 10002, fixRange on the slow engine completes
normally after its more than ten thousand corrective steps, returning
amount 10001 with no error. -/
theorem fixRange_slow_done (fuel : ℕ) (hfuel : 10002 ≤ fuel) :
    CreditPricing.fixRange fuel slowEngine "credits" 0 1 1 = .ok (some 10001) := by
  unfold CreditPricing.fixRange
  rw [slow_price 1 (by omega) (by omega)]
  rw [if_pos (by omega : (1:ℤ) ≤ 10001), exceptBind_ok,
    fixLoopUp_slow_some fuel 1 (by omega) (by omega) (by push_cast; omega),
    exceptBind_ok]
  exact fixLoopDown_slow fuel (by omega)

/-! ## Evaluation of the power-law branch at the concrete quantities named
by the specification.  The exponent log10 0.67 is bracketed between the
rationals -87/500 and -1739/10000 by raising both sides to integer powers,
and the power-law value follows by monotonicity of the real power in the
exponent. -/


theorem rpow_pow_neg {t : ℝ} (ht : 0 < t) (p q : ℕ) {e : ℝ}
    (he : e * q = -(p : ℝ)) : (t ^ e) ^ (q : ℕ) = (t ^ (p : ℕ))⁻¹ := by
  rw [← Real.rpow_natCast (t ^ e) q, ← Real.rpow_mul ht.le, he,
    Real.rpow_neg ht.le, Real.rpow_natCast]

theorem rpow_neg_lt {t r : ℝ} (ht : 0 < t) (hr : 0 < r) (p q : ℕ)
    (_hq : q ≠ 0) {e : ℝ} (he : e * q = -(p : ℝ))
    (h : 1 < t ^ p * r ^ q) : t ^ e < r := by
  refine lt_of_pow_lt_pow_left₀ q hr.le ?_
  rw [rpow_pow_neg ht p q he, inv_eq_one_div, div_lt_iff₀ (by positivity),
    mul_comm]
  linarith

theorem lt_rpow_neg {t r : ℝ} (ht : 0 < t) (_hr : 0 < r) (p q : ℕ)
    (_hq : q ≠ 0) {e : ℝ} (he : e * q = -(p : ℝ))
    (h : r ^ q * t ^ p < 1) : r < t ^ e := by
  refine lt_of_pow_lt_pow_left₀ q (Real.rpow_pos_of_pos ht e).le ?_
  rw [rpow_pow_neg ht p q he, inv_eq_one_div, lt_div_iff₀ (by positivity)]
  linarith

theorem rpow_logb_comm {a t : ℝ} (ha : 0 < a) (ht : 0 < t) :
    a ^ Real.logb 10 t = t ^ Real.logb 10 a := by
  rw [Real.rpow_def_of_pos ha, Real.rpow_def_of_pos ht, Real.logb, Real.logb]
  exact congrArg Real.exp (by ring)

theorem c67_upper : Real.logb 10 (67/100) < (-1739 : ℝ)/10000 := by
  rw [Real.logb_lt_iff_lt_rpow (by norm_num) (by norm_num)]
  refine lt_rpow_neg (by norm_num) (by norm_num) 1739 10000
    (by norm_num) (by norm_num) ?_
  rw [div_pow, div_mul_eq_mul_div, div_lt_one (by positivity)]
  exact_mod_cast (by decide : (67:ℕ)^10000 * 10^1739 < 100^10000)

theorem c67_lower : (-87 : ℝ)/500 < Real.logb 10 (67/100) := by
  rw [Real.lt_logb_iff_rpow_lt (by norm_num) (by norm_num)]
  refine rpow_neg_lt (by norm_num) (by norm_num) 87 500
    (by norm_num) (by norm_num) ?_
  rw [div_pow, ← mul_div_assoc, one_lt_div (by positivity)]
  exact_mod_cast (by decide : (100:ℕ)^500 < 10^87 * 67^500)

theorem asympPrice_1e6 : asympPrice specCredit (0 + 1000000) =
    (125 : ℝ) * ((250:ℝ)/3) ^ Real.logb 10 ((67:ℝ)/100) := by
  unfold asympPrice
  simp only [specCredit]
  norm_num
  rw [rpow_logb_comm (by norm_num) (by norm_num)]

theorem t1e6_upper : ((250:ℝ)/3) ^ Real.logb 10 ((67:ℝ)/100) < 117/250 := by
  have h1 : ((250:ℝ)/3) ^ Real.logb 10 ((67:ℝ)/100) <
      ((250:ℝ)/3) ^ ((-1739 : ℝ)/10000) := by
    rw [Real.rpow_lt_rpow_left_iff (by norm_num : (1:ℝ) < 250/3)]
    exact c67_upper
  refine h1.trans (rpow_neg_lt (by norm_num) (by norm_num) 1739 10000
    (by norm_num) (by norm_num) ?_)
  rw [div_pow, div_pow, div_mul_div_comm, one_lt_div (by positivity)]
  exact_mod_cast (by decide : (3:ℕ)^1739 * 250^10000 < 250^1739 * 117^10000)

theorem t1e6_lower : (23:ℝ)/50 < ((250:ℝ)/3) ^ Real.logb 10 ((67:ℝ)/100) := by
  have h1 : ((250:ℝ)/3) ^ ((-87 : ℝ)/500) <
      ((250:ℝ)/3) ^ Real.logb 10 ((67:ℝ)/100) := by
    rw [Real.rpow_lt_rpow_left_iff (by norm_num : (1:ℝ) < 250/3)]
    exact c67_lower
  refine lt_trans (lt_rpow_neg (by norm_num) (by norm_num) 87 500
    (by norm_num) (by norm_num) ?_) h1
  rw [div_pow, div_pow, div_mul_div_comm, div_lt_one (by positivity)]
  exact_mod_cast (by decide : (23:ℕ)^500 * 250^87 < 50^500 * 3^87)

theorem price_1e6_val : realRound (asympPrice specCredit (0 + 1000000)) = 58 := by
  unfold realRound
  rw [asympPrice_1e6]
  have h1 := t1e6_upper
  have h2 := t1e6_lower
  rw [Int.floor_eq_iff]
  constructor
  · push_cast
    nlinarith
  · push_cast
    nlinarith

theorem asympPrice_1e5 : asympPrice specCredit (0 + 100000) =
    (125 : ℝ) * ((25:ℝ)/3) ^ Real.logb 10 ((67:ℝ)/100) := by
  unfold asympPrice
  simp only [specCredit]
  norm_num
  rw [rpow_logb_comm (by norm_num) (by norm_num)]

theorem t1e5_upper : ((25:ℝ)/3) ^ Real.logb 10 ((67:ℝ)/100) < 173/250 := by
  have h1 : ((25:ℝ)/3) ^ Real.logb 10 ((67:ℝ)/100) <
      ((25:ℝ)/3) ^ ((-1739 : ℝ)/10000) := by
    rw [Real.rpow_lt_rpow_left_iff (by norm_num : (1:ℝ) < 25/3)]
    exact c67_upper
  refine h1.trans (rpow_neg_lt (by norm_num) (by norm_num) 1739 10000
    (by norm_num) (by norm_num) ?_)
  rw [div_pow, div_pow, div_mul_div_comm, one_lt_div (by positivity)]
  exact_mod_cast (by decide : (3:ℕ)^1739 * 250^10000 < 25^1739 * 173^10000)

theorem t1e5_lower : (171:ℝ)/250 < ((25:ℝ)/3) ^ Real.logb 10 ((67:ℝ)/100) := by
  have h1 : ((25:ℝ)/3) ^ ((-87 : ℝ)/500) <
      ((25:ℝ)/3) ^ Real.logb 10 ((67:ℝ)/100) := by
    rw [Real.rpow_lt_rpow_left_iff (by norm_num : (1:ℝ) < 25/3)]
    exact c67_lower
  refine lt_trans (lt_rpow_neg (by norm_num) (by norm_num) 87 500
    (by norm_num) (by norm_num) ?_) h1
  rw [div_pow, div_pow, div_mul_div_comm, div_lt_one (by positivity)]
  exact_mod_cast (by decide : (171:ℕ)^500 * 25^87 < 250^500 * 3^87)

theorem price_1e5_val : realRound (asympPrice specCredit (0 + 100000)) = 86 := by
  unfold realRound
  rw [asympPrice_1e5]
  have h1 := t1e5_upper
  have h2 := t1e5_lower
  rw [Int.floor_eq_iff]
  constructor
  · push_cast
    nlinarith
  · push_cast
    nlinarith

theorem price_spec_1e6 : specEngine.getCreditPrice "credits" 0 0 1000000 = .ok 58 := by
  have hd : specEngine.getDefinition "credits" 0 = .ok (some specCredit) := rfl
  unfold CreditPricing.getCreditPrice
  simp only [hd]
  rw [if_neg (by decide), if_neg (by decide), if_neg (by decide),
    if_neg (by decide), if_neg (by decide), if_neg (by decide),
    price_1e6_val]
  norm_num

theorem price_spec_1e5 : specEngine.getCreditPrice "credits" 0 0 100000 = .ok 86 := by
  have hd : specEngine.getDefinition "credits" 0 = .ok (some specCredit) := rfl
  unfold CreditPricing.getCreditPrice
  simp only [hd]
  rw [if_neg (by decide), if_neg (by decide), if_neg (by decide),
    if_neg (by decide), if_neg (by decide), if_neg (by decide),
    price_1e5_val]
  norm_num

/-- Total price on the spec definition at one hundred thousand credits. -/
theorem total_spec_1e5 :
    specEngine.getCreditTotalPrice "credits" 0 0 100000 = .ok 8600000 := by
  unfold CreditPricing.getCreditTotalPrice
  rw [price_spec_1e5, exceptBind_ok]
  norm_num [ratRound]
  rfl

/-- Total price on the spec definition at one million credits. -/
theorem total_spec_1e6 :
    specEngine.getCreditTotalPrice "credits" 0 0 1000000 = .ok 58000000 := by
  unfold CreditPricing.getCreditTotalPrice
  rw [price_spec_1e6, exceptBind_ok]
  norm_num [ratRound]
  rfl

theorem fooMake (now : ℤ) (t : Target) :
    CreditPricing.make (fooCredits now) t =
      .ok { credits := [("foo:bar", [fooDef3 now, fooDef2 now, fooDef1 now])],
            target := t } := by
  have hsort : sortCredits (fooCredits now) =
      [("foo:bar", [fooDef3 now, fooDef2 now, fooDef1 now])] := by
    unfold sortCredits fooCredits
    simp only [List.map, List.insertionSort, List.orderedInsert,
      fooDef1, fooDef2, fooDef3]
    rw [if_neg (show ¬(now + 3600000 ≤ now - 3600000) by omega)]
    simp only [List.orderedInsert]
    rw [if_neg (show ¬(now + 3600000 ≤ now - 7200000) by omega),
      if_neg (show ¬(now - 3600000 ≤ now - 7200000) by omega)]
  have hv3 : validateDefinitions "foo:bar"
      [fooDef3 now, fooDef2 now, fooDef1 now] [] [] = .ok () := by
    unfold validateDefinitions
    rw [if_neg (by simp), if_neg (by simp)]
    unfold validateDefinitions
    rw [if_neg (by simp [fooDef2, fooDef3]),
      if_neg (by simp [fooDef2, fooDef3]; omega)]
    unfold validateDefinitions
    rw [if_neg (by simp [fooDef1, fooDef2, fooDef3]),
      if_neg (by simp [fooDef1, fooDef2, fooDef3]; omega)]
    rfl
  have hval : validateCredits
      [("foo:bar", [fooDef3 now, fooDef2 now, fooDef1 now])] = .ok () := by
    unfold validateCredits
    rw [hv3, exceptBind_ok]
    rfl
  unfold CreditPricing.make
  simp only [hsort, hval]

theorem getDefinition_of_lookup {e : CreditPricing} {s : String}
    {defs : List Credit} (now : ℤ)
    (h : lookupCredits e.credits s = some defs) :
    e.getDefinition s now = .ok (selectCredit e.target now defs) := by
  unfold CreditPricing.getDefinition
  rw [h]

/-- C2: for an engine built from three versions of feature foo:bar with
validFrom at now - 2h, now - 1h and now + 1h (versions 1, 2, 3), target
current resolves to version 2, latest to version 3, the number 1 to
version 1, Date(now) to version 2 and Date(now + 24h) to version 3; a
future validFrom is excluded, and a validFrom exactly equal to the
comparison date is included (the comparison is le, not lt): when the
wall clock of the current target, or the date of a Date target, is
exactly version 2's validFrom (now - 1h), version 2 is still selected,
whereas a strict comparison would skip it and return version 1. -/
theorem claim_C2 (now : ℤ) :
    (CreditPricing.make (fooCredits now) .current >>=
        fun e => e.getDefinition "foo:bar" now) = .ok (some (fooDef2 now)) ∧
    (CreditPricing.make (fooCredits now) .latest >>=
        fun e => e.getDefinition "foo:bar" now) = .ok (some (fooDef3 now)) ∧
    (CreditPricing.make (fooCredits now) (.version 1) >>=
        fun e => e.getDefinition "foo:bar" now) = .ok (some (fooDef1 now)) ∧
    (CreditPricing.make (fooCredits now) (.date now) >>=
        fun e => e.getDefinition "foo:bar" now) = .ok (some (fooDef2 now)) ∧
    (CreditPricing.make (fooCredits now) (.date (now + 86400000)) >>=
        fun e => e.getDefinition "foo:bar" now) = .ok (some (fooDef3 now)) ∧
    (CreditPricing.make (fooCredits now) .current >>=
        fun e => e.getDefinition "foo:bar" (now - 3600000)) =
      .ok (some (fooDef2 now)) ∧
    (CreditPricing.make (fooCredits now) (.date (now - 3600000)) >>=
        fun e => e.getDefinition "foo:bar" now) = .ok (some (fooDef2 now)) := by
  have hlook : lookupCredits
      [("foo:bar", [fooDef3 now, fooDef2 now, fooDef1 now])] "foo:bar" =
        some [fooDef3 now, fooDef2 now, fooDef1 now] := rfl
  have hd3now : decide ((fooDef3 now).validFrom ≤ now) = false := by
    simp only [fooDef3, decide_eq_false_iff_not]
    omega
  have hd2now : decide ((fooDef2 now).validFrom ≤ now) = true := by
    simp only [fooDef2, decide_eq_true_eq]
    omega
  have hd3fut : decide ((fooDef3 now).validFrom ≤ now + 86400000) = true := by
    simp only [fooDef3, decide_eq_true_eq]
    omega
  have hd3eq : decide ((fooDef3 now).validFrom ≤ now - 3600000) = false := by
    simp only [fooDef3, decide_eq_false_iff_not]
    omega
  have hd2eq : decide ((fooDef2 now).validFrom ≤ now - 3600000) = true := by
    simp only [fooDef2, decide_eq_true_eq]
    omega
  have hv3 : ((fooDef3 now).version == (1 : ℤ)) = false := by
    simp [fooDef3]
  have hv2 : ((fooDef2 now).version == (1 : ℤ)) = false := by
    simp [fooDef2]
  have hv1 : ((fooDef1 now).version == (1 : ℤ)) = true := by
    simp [fooDef1]
  refine ⟨?_, ?_, ?_, ?_, ?_, ?_, ?_⟩
  · rw [fooMake, exceptBind_ok, getDefinition_of_lookup now hlook]
    simp only [selectCredit, List.find?_cons, hd3now, hd2now]
  · rw [fooMake, exceptBind_ok]
    rfl
  · rw [fooMake, exceptBind_ok, getDefinition_of_lookup now hlook]
    simp [selectCredit, List.find?_cons, fooDef1, fooDef2, fooDef3]
  · rw [fooMake, exceptBind_ok, getDefinition_of_lookup now hlook]
    simp only [selectCredit, List.find?_cons, hd3now, hd2now]
  · rw [fooMake, exceptBind_ok, getDefinition_of_lookup now hlook]
    simp only [selectCredit, List.find?_cons, hd3fut]
  · rw [fooMake, exceptBind_ok, getDefinition_of_lookup (now - 3600000) hlook]
    simp only [selectCredit, List.find?_cons, hd3eq, hd2eq]
  · rw [fooMake, exceptBind_ok, getDefinition_of_lookup now hlook]
    simp only [selectCredit, List.find?_cons, hd3eq, hd2eq]

theorem one_le_of_pos_int {q : ℚ} (hden : q.den = 1) (hpos : 0 < q) : 1 ≤ q := by
  have hnum : (q.num : ℚ) = q := (Rat.den_eq_one_iff q).mp hden
  have h1 : (1 : ℤ) ≤ q.num := Rat.num_pos.mpr hpos
  calc (1 : ℚ) ≤ (q.num : ℚ) := by exact_mod_cast h1
    _ = q := hnum

theorem getCreditPrice_asymp (e : CreditPricing) (s : String) (now : ℤ)
    (av tp : ℚ) (p : Credit) (h1 : av.den = 1) (h2 : tp.den = 1)
    (h3 : 0 ≤ av) (h4 : 0 < tp) (hd : e.getDefinition s now = .ok (some p))
    (ht : p.discountThreshold < av + tp) :
    e.getCreditPrice s now av tp =
      if realRound (asympPrice p (av + tp)) ≤ 0 then .error .quantityOverflow
      else .ok (realRound (asympPrice p (av + tp))) := by
  unfold CreditPricing.getCreditPrice
  simp only [hd]
  rw [if_neg (by simp [h1]), if_neg (by simp [h2]),
    if_neg (by push_neg; exact h3), if_neg (by push_neg; exact h4),
    if_neg (by push_neg; exact ⟨ne_of_gt h4, ne_of_gt (by linarith)⟩),
    if_neg (by push_neg; exact ht)]

theorem getCreditPrice_linear (e : CreditPricing) (s : String) (now : ℤ)
    (av tp : ℚ) (p : Credit) (h1 : av.den = 1) (h2 : tp.den = 1)
    (h3 : 0 ≤ av) (h4 : 0 < tp) (hd : e.getDefinition s now = .ok (some p))
    (ht : av + tp ≤ p.discountThreshold) :
    e.getCreditPrice s now av tp =
      .ok (ratRound (p.firstDiscountPriceCents +
        (p.discountThresholdPriceCents - p.firstDiscountPriceCents) /
          (p.discountThreshold - 1) * (av + tp - 1))) := by
  unfold CreditPricing.getCreditPrice
  simp only [hd]
  rw [if_neg (by simp [h1]), if_neg (by simp [h2]),
    if_neg (by push_neg; exact h3), if_neg (by push_neg; exact h4),
    if_neg (by push_neg; exact ⟨ne_of_gt h4, ne_of_gt (by linarith)⟩),
    if_pos ht]

/-- C5: in the asymptotic regime (total above the discount threshold),
getCreditPrice raises QuantityOverflow exactly when the rounded power-law
result is at most 0; otherwise it returns that rounded value, which is
positive, so the asymptotic branch never returns a non-positive price. -/
theorem claim_C5 (e : CreditPricing) (s : String) (now : ℤ) (av tp : ℚ)
    (p : Credit) (h1 : av.den = 1) (h2 : tp.den = 1) (h3 : 0 ≤ av)
    (h4 : 0 < tp) (hd : e.getDefinition s now = .ok (some p))
    (ht : p.discountThreshold < av + tp) :
    (e.getCreditPrice s now av tp = .error .quantityOverflow ↔
      realRound (asympPrice p (av + tp)) ≤ 0) ∧
    ∀ r, e.getCreditPrice s now av tp = .ok r →
      r = realRound (asympPrice p (av + tp)) ∧ 0 < r := by
  have hprice := getCreditPrice_asymp e s now av tp p h1 h2 h3 h4 hd ht
  constructor
  · rw [hprice]
    by_cases hc : realRound (asympPrice p (av + tp)) ≤ 0
    · simp [hc]
    · simp [hc]
  · intro r hr
    rw [hprice] at hr
    by_cases hc : realRound (asympPrice p (av + tp)) ≤ 0
    · rw [if_pos hc] at hr
      exact Except.noConfusion hr
    · rw [if_neg hc] at hr
      cases hr
      exact ⟨rfl, by omega⟩

/-- C6: for every target mode, getDefinition raises UnknownFeature exactly
when the credits table has no entry for the slug; when the key is present
it returns ok with the selected definition, in particular an absent
result (none) rather than an error when nothing matches the target. -/
theorem claim_C6 (e : CreditPricing) (s : String) (now : ℤ) :
    (e.getDefinition s now = .error (.unknownFeature s) ↔
      lookupCredits e.credits s = none) ∧
    (∀ defs, lookupCredits e.credits s = some defs →
      e.getDefinition s now = .ok (selectCredit e.target now defs)) := by
  constructor
  · unfold CreditPricing.getDefinition
    cases hl : lookupCredits e.credits s with
    | none => simp
    | some defs => simp
  · intro defs h
    exact getDefinition_of_lookup now h

/-- C7: getCreditPrice validates in priority order, each violation its
own error: first availableCredits integral, then creditsToPurchase
integral, then availableCredits nonnegative, then creditsToPurchase
positive; only after all four pass does it resolve the definition,
raising FeatureNotPriced when resolution yields no definition. -/
theorem claim_C7 (e : CreditPricing) (s : String) (now : ℤ) (av tp : ℚ) :
    (av.den ≠ 1 →
      e.getCreditPrice s now av tp = .error .availableCreditsNotWhole) ∧
    (av.den = 1 → tp.den ≠ 1 →
      e.getCreditPrice s now av tp = .error .purchaseAmountNotWhole) ∧
    (av.den = 1 → tp.den = 1 → av < 0 →
      e.getCreditPrice s now av tp = .error .availableCreditsNegative) ∧
    (av.den = 1 → tp.den = 1 → 0 ≤ av → tp ≤ 0 →
      e.getCreditPrice s now av tp = .error .purchaseAmountNotPositive) ∧
    (av.den = 1 → tp.den = 1 → 0 ≤ av → 0 < tp →
      e.getDefinition s now = .ok none →
      e.getCreditPrice s now av tp = .error .featureNotPriced) := by
  refine ⟨?_, ?_, ?_, ?_, ?_⟩
  · intro h1
    unfold CreditPricing.getCreditPrice
    rw [if_pos h1]
  · intro h1 h2
    unfold CreditPricing.getCreditPrice
    rw [if_neg (by simp [h1]), if_pos h2]
  · intro h1 h2 h3
    unfold CreditPricing.getCreditPrice
    rw [if_neg (by simp [h1]), if_neg (by simp [h2]), if_pos h3]
  · intro h1 h2 h3 h4
    unfold CreditPricing.getCreditPrice
    rw [if_neg (by simp [h1]), if_neg (by simp [h2]),
      if_neg (by push_neg; exact h3), if_pos h4]
  · intro h1 h2 h3 h4 hd
    unfold CreditPricing.getCreditPrice
    rw [if_neg (by simp [h1]), if_neg (by simp [h2]),
      if_neg (by push_neg; exact h3), if_neg (by push_neg; exact h4)]
    simp only [hd]

/-- C10: getDiscountOverDynamic performs its division without validating
dynamicPriceCents; for dynamicPriceCents = 0 with otherwise valid
arguments it does not raise a typed error but returns a non-finite IEEE
value (negative infinity for a positive unit price). -/
theorem claim_C10 (e : CreditPricing) (s : String) (now : ℤ) (av tp : ℚ)
    (u : ℤ) (h : e.getCreditPrice s now av tp = .ok u) :
    e.getDiscountOverDynamic s now av tp 0 =
      .ok (if 0 < u then JsNum.negInf
        else if u < 0 then JsNum.posInf else JsNum.nan) ∧
    ∀ v, e.getDiscountOverDynamic s now av tp 0 = .ok v →
      v.isFinite = false := by
  have hmain : e.getDiscountOverDynamic s now av tp 0 =
      .ok (if 0 < u then JsNum.negInf
        else if u < 0 then JsNum.posInf else JsNum.nan) := by
    unfold CreditPricing.getDiscountOverDynamic
    rw [h, exceptBind_ok]
    rcases lt_trichotomy (0 : ℤ) u with hu | hu | hu
    · have h0 : ¬(u = 0) := by omega
      have hn : ¬(u < 0) := by omega
      rw [if_pos hu]
      simp [jsSub, jsDiv, jsMul, jsRoundNum, h0, hn]
      rfl
    · subst hu
      rw [if_neg (lt_irrefl 0), if_neg (lt_irrefl 0)]
      simp [jsSub, jsDiv, jsMul, jsRoundNum]
      rfl
    · have h0 : ¬(u = 0) := by omega
      rw [if_neg (by omega), if_pos hu]
      simp [jsSub, jsDiv, jsMul, jsRoundNum, h0, hu]
      rfl
  exact ⟨hmain, by intro v hv; rw [hmain] at hv; cases hv; split_ifs <;> rfl⟩

/-- C1: for the definition {firstDiscountPriceCents 149, discountRate 0.33,
discountThreshold 12000, discountThresholdPriceCents 125}, getCreditPrice
returns unit price 149 for 1 credit from 0 held, 147 for 1000 credits, and
58 for 1,000,000 credits; and in general, for every valid pair of integral
amounts with availableCredits at least 0 and creditsToPurchase positive,
the unit price is round(149 + (125 - 149)/(12000 - 1) * (total - 1)) when
total is at most 12000, and whenever a price is returned for total above
12000 it is round(125 * (1 - 0.33) ^ log10 (total / 12000)). -/
theorem claim_C1 :
    specEngine.getCreditPrice "credits" 0 0 1 = .ok 149 ∧
    specEngine.getCreditPrice "credits" 0 0 1000 = .ok 147 ∧
    specEngine.getCreditPrice "credits" 0 0 1000000 = .ok 58 ∧
    ∀ av tp : ℚ, av.den = 1 → tp.den = 1 → 0 ≤ av → 0 < tp →
      (av + tp ≤ 12000 →
        specEngine.getCreditPrice "credits" 0 av tp =
          .ok (ratRound (149 + (125 - 149) / (12000 - 1) * (av + tp - 1)))) ∧
      (12000 < av + tp →
        ∀ r, specEngine.getCreditPrice "credits" 0 av tp = .ok r →
          r = realRound ((125 : ℝ) * (1 - 33/100) ^
            Real.logb 10 (((av + tp : ℚ) : ℝ) / 12000))) := by
  refine ⟨by decide, by decide, price_spec_1e6, ?_⟩
  intro av tp h1 h2 h3 h4
  have hd : specEngine.getDefinition "credits" 0 = .ok (some specCredit) := rfl
  have hasymp : asympPrice specCredit (av + tp) =
      (125 : ℝ) * (1 - 33/100) ^
        Real.logb 10 (((av + tp : ℚ) : ℝ) / 12000) := by
    unfold asympPrice
    simp only [specCredit]
    norm_num
  constructor
  · intro hle
    rw [getCreditPrice_linear specEngine "credits" 0 av tp specCredit
      h1 h2 h3 h4 hd hle]
    rfl
  · intro hgt r hr
    rw [getCreditPrice_asymp specEngine "credits" 0 av tp specCredit
      h1 h2 h3 h4 hd hgt] at hr
    by_cases hc : realRound (asympPrice specCredit (av + tp)) ≤ 0
    · rw [if_pos hc] at hr
      exact Except.noConfusion hr
    · rw [if_neg hc] at hr
      cases hr
      rw [hasymp]

/-- C3 (amended): getCreditTotalPrice on the spec definition is strictly
increasing as the purchase quantity grows by powers of ten (verified from
1 up to 1,000,000, crossing the discount threshold), but it is not
strictly increasing in unit steps of the quantity below the overflow
point: see the counterexample at 2250 to 2251. -/
theorem claim_C3 :
    specEngine.getCreditTotalPrice "credits" 0 0 1 = .ok 149 ∧
    specEngine.getCreditTotalPrice "credits" 0 0 10 = .ok 1490 ∧
    specEngine.getCreditTotalPrice "credits" 0 0 100 = .ok 14900 ∧
    specEngine.getCreditTotalPrice "credits" 0 0 1000 = .ok 147000 ∧
    specEngine.getCreditTotalPrice "credits" 0 0 10000 = .ok 1290000 ∧
    specEngine.getCreditTotalPrice "credits" 0 0 100000 = .ok 8600000 ∧
    specEngine.getCreditTotalPrice "credits" 0 0 1000000 = .ok 58000000 ∧
    ((149 : ℤ) < 1490 ∧ (1490 : ℤ) < 14900 ∧ (14900 : ℤ) < 147000 ∧
      (147000 : ℤ) < 1290000 ∧ (1290000 : ℤ) < 8600000 ∧
      (8600000 : ℤ) < 58000000) :=
  ⟨by decide, by decide, by decide, by decide, by decide,
    total_spec_1e5, total_spec_1e6, by decide⟩

/-- C3 is false as stated: at quantities 2250 and 2251, both far below
the quantity at which QuantityOverflow is raised, the total price drops
from 326250 to 324144 cents because the unit price steps down from 145 to
144 while the quantity only grows by one. -/
theorem claim_C3_counterexample :
    specEngine.getCreditTotalPrice "credits" 0 0 2250 = .ok 326250 ∧
    specEngine.getCreditTotalPrice "credits" 0 0 2251 = .ok 324144 ∧
    (324144 : ℤ) < 326250 :=
  ⟨by decide, by decide, by decide⟩

/-- C4 (amended): the round-trip of getCreditRange with the forward curve
holds whenever the discrete unit-price curve attains both the target and
target + 1 at consecutive quantities; verified for the spec definition at
every target unit cost from 126 to 148 cents: the returned from bound
prices exactly at the target, and from - 1 prices at target + 1. -/
theorem claim_C4 :
    (List.range 23).all (fun i => roundTripFromOk (126 + i)) = true := by
  decide

/-- C4 is false as stated: for a valid definition whose linear segment
has slope -2 cents per credit, the curve skips the odd target 99; the
correction loop then leaves a from bound (3) whose unit price is 96, not
the target 99, so the claimed round-trip fails. -/
theorem claim_C4_counterexample :
    CreditPricing.getCreditRange 100 skipEngine "credits" 0 99 =
      .ok (some { fromAmount := some 3, toAmount := some 1 }) ∧
    skipEngine.getCreditPrice "credits" 0 0 3 = .ok 96 ∧ (96 : ℤ) ≠ 99 :=
  ⟨by decide, by decide, by decide⟩

/-- C8 is false as stated: the boundary pair (0, 0) does not return 0;
it fails the creditsToPurchase > 0 precondition and raises. -/
theorem claim_C8_counterexample :
    specEngine.getCreditPrice "credits" 0 0 0 =
      .error .purchaseAmountNotPositive := by
  decide

/-- C8 (amended): getCreditPrice(f, 0, 0) raises the InvalidInput variant
for a non-positive purchase amount rather than returning 0; the total = 0
branch of the source returning 0 is dead code, as witnessed by the fact
that getCreditPrice on the spec engine never returns ok 0 for any
arguments. -/
theorem claim_C8 :
    specEngine.getCreditPrice "credits" 0 0 0 =
      .error .purchaseAmountNotPositive ∧
    ∀ (now : ℤ) (av tp : ℚ),
      specEngine.getCreditPrice "credits" now av tp ≠ .ok 0 := by
  refine ⟨by decide, ?_⟩
  intro now av tp h
  have hd : specEngine.getDefinition "credits" now = .ok (some specCredit) := rfl
  unfold CreditPricing.getCreditPrice at h
  simp only [hd] at h
  by_cases h1 : av.den ≠ 1
  · rw [if_pos h1] at h
    exact Except.noConfusion h
  rw [if_neg h1] at h
  by_cases h2 : tp.den ≠ 1
  · rw [if_pos h2] at h
    exact Except.noConfusion h
  rw [if_neg h2] at h
  by_cases h3 : av < 0
  · rw [if_pos h3] at h
    exact Except.noConfusion h
  rw [if_neg h3] at h
  by_cases h4 : tp ≤ 0
  · rw [if_pos h4] at h
    exact Except.noConfusion h
  rw [if_neg h4] at h
  push_neg at h1 h2 h3 h4
  rw [if_neg (by push_neg; exact ⟨ne_of_gt h4, ne_of_gt (by linarith)⟩)] at h
  by_cases h5 : av + tp ≤ specCredit.discountThreshold
  · rw [if_pos h5] at h
    have hq := Except.ok.inj h
    have htp1 : (1 : ℚ) ≤ tp := one_le_of_pos_int h2 h4
    have hb : (125 : ℤ) ≤ ratRound (specCredit.firstDiscountPriceCents +
        (specCredit.discountThresholdPriceCents -
            specCredit.firstDiscountPriceCents) /
          (specCredit.discountThreshold - 1) * (av + tp - 1)) := by
      unfold ratRound
      rw [Int.le_floor]
      simp only [specCredit] at h5 ⊢
      push_cast
      linarith
    rw [hq] at hb
    exact absurd hb (by norm_num)
  · rw [if_neg h5] at h
    by_cases h6 : realRound (asympPrice specCredit (av + tp)) ≤ 0
    · rw [if_pos h6] at h
      exact Except.noConfusion h
    · rw [if_neg h6] at h
      have := Except.ok.inj h
      omega

/-- C9 (amended): the fixRange correction loops carry no iteration cap:
on a valid definition whose curve needs more than ten thousand corrective
steps, every fuel budget up to 10001 iterations leaves the loop still
running with no error raised, and any budget of at least 10002 lets it
complete normally, returning amount 10001. -/
theorem claim_C9 :
    (∀ fuel : ℕ, fuel ≤ 10001 →
      CreditPricing.fixRange fuel slowEngine "credits" 0 1 1 = .ok none) ∧
    (∀ fuel : ℕ, 10002 ≤ fuel →
      CreditPricing.fixRange fuel slowEngine "credits" 0 1 1 =
        .ok (some 10001)) :=
  ⟨fixRange_slow_stuck, fixRange_slow_done⟩

/-- C9 is false as stated: the correction search is not bounded by a
defensive few-thousand-iteration cap that surfaces a fatal error; after
2048 iterations the loop is still running without any error, and it then
completes normally after more than ten thousand steps. -/
theorem claim_C9_counterexample :
    CreditPricing.fixRange 2048 slowEngine "credits" 0 1 1 = .ok none ∧
    CreditPricing.fixRange 16384 slowEngine "credits" 0 1 1 =
      .ok (some 10001) :=
  ⟨fixRange_slow_stuck 2048 (by norm_num), fixRange_slow_done 16384 (by norm_num)⟩

theorem claim_C1_witness :
    specEngine.getCreditPrice "credits" 0 0 500 =
      .ok (ratRound (149 + (125 - 149) / (12000 - 1) * (0 + 500 - 1))) :=
  (claim_C1.2.2.2 0 500 (by decide) (by decide) (by decide) (by decide)).1
    (by norm_num)

theorem claim_C5_witness :
    (specEngine.getCreditPrice "credits" 0 0 20000 =
        .error .quantityOverflow ↔
      realRound (asympPrice specCredit (0 + 20000)) ≤ 0) ∧
    ∀ r, specEngine.getCreditPrice "credits" 0 0 20000 = .ok r →
      r = realRound (asympPrice specCredit (0 + 20000)) ∧ 0 < r :=
  claim_C5 specEngine "credits" 0 0 20000 specCredit (by decide) (by decide)
    (by decide) (by decide) rfl (by decide)

theorem claim_C6_witness :
    specEngine.getDefinition "missing" 0 =
      .error (.unknownFeature "missing") ∧
    specEngine.getDefinition "credits" 0 =
      .ok (selectCredit specEngine.target 0 [specCredit]) :=
  ⟨(claim_C6 specEngine "missing" 0).1.mpr rfl,
   (claim_C6 specEngine "credits" 0).2 [specCredit] rfl⟩

theorem claim_C7_witness :
    specEngine.getCreditPrice "credits" 0 (1/2) 5 =
      .error .availableCreditsNotWhole ∧
    specEngine.getCreditPrice "credits" 0 0 (1/2) =
      .error .purchaseAmountNotWhole ∧
    specEngine.getCreditPrice "credits" 0 (-1) 5 =
      .error .availableCreditsNegative ∧
    specEngine.getCreditPrice "credits" 0 0 (-3) =
      .error .purchaseAmountNotPositive ∧
    missEngine.getCreditPrice "credits" 0 0 5 = .error .featureNotPriced :=
  ⟨(claim_C7 specEngine "credits" 0 (1/2) 5).1 (by decide),
   (claim_C7 specEngine "credits" 0 0 (1/2)).2.1 (by decide) (by decide),
   (claim_C7 specEngine "credits" 0 (-1) 5).2.2.1 (by decide) (by decide)
     (by decide),
   (claim_C7 specEngine "credits" 0 0 (-3)).2.2.2.1 (by decide) (by decide)
     (by decide) (by decide),
   (claim_C7 missEngine "credits" 0 0 5).2.2.2.2 (by decide) (by decide)
     (by decide) (by decide) rfl⟩

theorem claim_C9_witness :
    CreditPricing.fixRange 4096 slowEngine "credits" 0 1 1 = .ok none ∧
    CreditPricing.fixRange 20000 slowEngine "credits" 0 1 1 =
      .ok (some 10001) :=
  ⟨claim_C9.1 4096 (by norm_num), claim_C9.2 20000 (by norm_num)⟩

theorem claim_C10_witness :
    specEngine.getDiscountOverDynamic "credits" 0 0 1 0 =
      .ok (if 0 < (149 : ℤ) then JsNum.negInf
        else if (149 : ℤ) < 0 then JsNum.posInf else JsNum.nan) ∧
    ∀ v, specEngine.getDiscountOverDynamic "credits" 0 0 1 0 = .ok v →
      v.isFinite = false :=
  claim_C10 specEngine "credits" 0 0 1 149 (by decide)
